import Mathlib

/-!
Shallow embedding of `request.go` from the `grequests` library
(an ergonomic HTTP request builder), together with proofs about its
request-construction and client-configuration logic.

Go's standard-library collaborators (`net/url` parsing, `encoding/json`
and `encoding/xml` serialization, `http.NewRequest` validation, the
multipart writer's boundary and close behaviour, and the ambient
environment proxy resolver) are modelled as explicit parameters, since
the spec treats them as external collaborators.
-/

namespace Grequests

/-- Go `net/url` `Values`: a map from key to a list of values, modelled as
an association list whose keys are kept unique by `valuesSet`/`valuesAdd`. -/
abbrev URLValues := List (String × List String)

/-- `Values.Get`-style lookup returning all values of a key. -/
def valuesGet (vs : URLValues) (key : String) : Option (List String) :=
  match vs with
  | [] => Option.none
  | (k, v) :: rest => if k = key then some v else valuesGet rest key

/-- Go `Values.Set`: replace all values of `key` with the single `value`. -/
def valuesSet (vs : URLValues) (key value : String) : URLValues :=
  match vs with
  | [] => [(key, [value])]
  | (k, v) :: rest =>
    if k = key then (k, [value]) :: rest else (k, v) :: valuesSet rest key value

/-- Go `Values.Add` / `Header.Add`: append `value` to the values of `key`. -/
def valuesAdd (vs : URLValues) (key value : String) : URLValues :=
  match vs with
  | [] => [(key, [value])]
  | (k, v) :: rest =>
    if k = key then (k, v ++ [value]) :: rest else (k, v) :: valuesAdd rest key value

def hexDigits : List Char :=
  ['0','1','2','3','4','5','6','7','8','9','A','B','C','D','E','F']

/-- Characters Go `url.QueryEscape` leaves unescaped (RFC 3986 unreserved). -/
def shouldEscape (c : Char) : Bool :=
  !(c.isAlphanum || c = '-' || c = '_' || c = '.' || c = '~')

/-- Model of Go `url.QueryEscape` (per character; coincides with Go's
per-byte escaping on ASCII input). -/
def queryEscape (s : String) : String :=
  s.data.foldl (fun acc c =>
    if c = ' ' then acc ++ "+"
    else if shouldEscape c then
      acc ++ "%" ++ String.mk [hexDigits.getD (c.toNat / 16) '0', hexDigits.getD (c.toNat % 16) '0']
    else acc.push c) ""

/-- Lexicographic `≤` on character lists by code point (Go's `sort.Strings`
byte order; identical on ASCII input). -/
def charListLe : List Char → List Char → Bool
  | [], _ => true
  | _ :: _, [] => false
  | a :: as, b :: bs =>
    if a.toNat < b.toNat then true
    else if b.toNat < a.toNat then false
    else charListLe as bs

theorem charListLe_total : ∀ xs ys : List Char, charListLe xs ys = true ∨ charListLe ys xs = true
  | [], _ => Or.inl rfl
  | _ :: _, [] => Or.inr rfl
  | a :: as, b :: bs => by
    rcases Nat.lt_trichotomy a.toNat b.toNat with h | h | h
    · left; simp [charListLe, h]
    · rcases charListLe_total as bs with ih | ih
      · left; simp [charListLe, h, ih]
      · right; simp [charListLe, h.symm, ih]
    · right; simp [charListLe, h]

theorem charListLe_trans :
    ∀ xs ys zs : List Char, charListLe xs ys = true → charListLe ys zs = true →
      charListLe xs zs = true
  | [], _, _, _, _ => rfl
  | _ :: _, [], _, h, _ => by simp [charListLe] at h
  | _ :: _, _ :: _, [], _, h => by simp [charListLe] at h
  | a :: as, b :: bs, c :: cs, h1, h2 => by
    simp only [charListLe] at h1 h2 ⊢
    rcases Nat.lt_trichotomy a.toNat b.toNat with hab | hab | hab
    · rcases Nat.lt_trichotomy b.toNat c.toNat with hbc | hbc | hbc
      · simp [show a.toNat < c.toNat by omega]
      · simp [show a.toNat < c.toNat by omega]
      · simp [show ¬ b.toNat < c.toNat by omega, hbc] at h2
    · rcases Nat.lt_trichotomy b.toNat c.toNat with hbc | hbc | hbc
      · simp [show a.toNat < c.toNat by omega]
      · simp only [if_neg (show ¬ a.toNat < b.toNat by omega),
          if_neg (show ¬ b.toNat < a.toNat by omega)] at h1
        simp only [if_neg (show ¬ b.toNat < c.toNat by omega),
          if_neg (show ¬ c.toNat < b.toNat by omega)] at h2
        simp only [if_neg (show ¬ a.toNat < c.toNat by omega),
          if_neg (show ¬ c.toNat < a.toNat by omega)]
        exact charListLe_trans as bs cs h1 h2
      · simp [show ¬ b.toNat < c.toNat by omega, hbc] at h2
    · simp [show ¬ a.toNat < b.toNat by omega, hab] at h1

theorem charListLe_antisymm :
    ∀ xs ys : List Char, charListLe xs ys = true → charListLe ys xs = true → xs = ys
  | [], [], _, _ => rfl
  | [], _ :: _, _, h => by simp [charListLe] at h
  | _ :: _, [], h, _ => by simp [charListLe] at h
  | a :: as, b :: bs, h1, h2 => by
    simp only [charListLe] at h1 h2
    split_ifs at h1 h2 with hab hba <;> try omega
    have hn : a.toNat = b.toNat := by omega
    have hc : a = b := Char.eq_of_val_eq (UInt32.ext hn)
    have := charListLe_antisymm as bs h1 h2
    rw [hc, this]

/-- Ordering of `Values` entries by key, as used by `Values.Encode`'s key sort. -/
def keyLE (p q : String × List String) : Prop := charListLe p.1.data q.1.data = true

instance : DecidableRel keyLE :=
  fun p q => inferInstanceAs (Decidable (charListLe p.1.data q.1.data = true))

instance : IsTotal (String × List String) keyLE :=
  ⟨fun p q => charListLe_total p.1.data q.1.data⟩

instance : IsTrans (String × List String) keyLE :=
  ⟨fun _ _ _ h1 h2 => charListLe_trans _ _ _ h1 h2⟩

/-- Sort `Values` entries by key (Go `Encode` sorts the map's keys). -/
def sortPairs (vs : URLValues) : URLValues := List.insertionSort keyLE vs

/-- Model of Go `Values.Encode`: keys in sorted order, each value emitted as
`k=v` with query escaping, joined by `&`. -/
def valuesEncode (vs : URLValues) : String :=
  String.intercalate "&"
    ((sortPairs vs).map
      (fun p => p.2.map (fun v => queryEscape p.1 ++ "=" ++ queryEscape v))).flatten

/-- `encodePostValues` from `request.go`: insert every pair with `Set`, then
`Encode` (which sorts all of the string values). The Go `map` iteration order
is modelled by taking the pairs as a list in an arbitrary order. -/
def encodePostValues (postValues : List (String × String)) : String :=
  valuesEncode (postValues.foldl (fun acc p => valuesSet acc p.1 p.2) [])

example : encodePostValues [("b", "2"), ("a", "1")] = "a=1&b=2" := by decide

example : encodePostValues [("a", "1"), ("b", "2")] = "a=1&b=2" := by decide

/-- Result of `io.Copy` from a stream: `none` = clean success,
`some eofErr` = the `io.EOF` sentinel (treated as success by the source),
`some (other e)` = a genuine read failure. -/
inductive CopyErr
  | eofErr
  | other (e : String)
deriving DecidableEq

/-- An `io.ReadCloser` byte stream: the bytes it yields to a full copy and
the error, if any, that `io.Copy` from it reports. -/
structure FileStream where
  contents : List Nat
  copyErr : Option CopyErr := Option.none
deriving DecidableEq

/-- `FileUpload` (declared in the repository outside `request.go`).
Modelled from the spec: "a named byte stream" — the file name and a
nil-able byte stream, the two fields `request.go` reads. -/
structure FileUpload where
  FileName : String
  FileContents : Option FileStream := Option.none
deriving DecidableEq

/-- An `http.Cookie` record (only the parts this layer moves around). -/
structure Cookie where
  name : String
  value : String
deriving DecidableEq

/-- `RequestOptions` from `request.go`. Nil-able Go maps/slices/pointers
become `Option`; `time.Duration` becomes `Nat` (zero = unset); a
caller-supplied `*http.Client` is an opaque identity (`Nat`). -/
structure RequestOptions where
  Data : Option (List (String × String)) := Option.none
  Params : List (String × String) := []
  File : Option FileUpload := Option.none
  JSON : Option String := Option.none
  XML : Option String := Option.none
  Headers : List (String × String) := []
  InsecureSkipVerify : Bool := false
  DisableCompression : Bool := false
  UserAgent : String := ""
  Auth : Option (List String) := Option.none
  IsAjax : Bool := false
  Cookies : List Cookie := []
  UseCookieJar : Bool := false
  Proxies : List (String × String) := []
  TLSHandshakeTimeout : Nat := 0
  DialTimeout : Nat := 0
  DialKeepAlive : Nat := 0
  HTTPClient : Option Nat := Option.none
deriving DecidableEq

/-- A request body: none, an in-memory buffer (JSON/XML/form/multipart), or
a raw byte stream (the non-POST file-upload path). -/
inductive Body
  | empty
  | buffer (s : String)
  | stream (fs : FileStream)
deriving DecidableEq

/-- An assembled `http.Request` (the parts this layer constructs). -/
structure Request where
  method : String
  url : String
  body : Body
  headers : URLValues := []
  basicAuth : Option (String × String) := Option.none
  cookies : List Cookie := []
deriving DecidableEq

/-- Result of a Go function: a value, a returned `error`, or a runtime
panic (process abort). -/
inductive Outcome (α : Type)
  | ok (a : α)
  | err (e : String)
  | panics (msg : String)
deriving DecidableEq

/-- `url.Parse`'s view of a URL: its `String()` rendering and `RawQuery`. -/
structure ParsedURL where
  urlString : String
  rawQuery : String
deriving DecidableEq

/-- The Go standard-library collaborators of `request.go`, passed in
explicitly: URL/query parsing, JSON/XML serialization, `http.NewRequest`
validation, and the multipart writer's boundary and `Close` behaviour.
`urlParseQuery` returns the (possibly partial) values together with the
error, matching `url.ParseQuery`'s two results. -/
structure Stdlib where
  urlParse : String → Except String ParsedURL
  urlParseQuery : String → URLValues × Option String
  jsonEncode : Option String → Except String String
  xmlEncode : Option String → Except String String
  newRequestErr : String → String → Option String
  mwBoundary : String := "b0undary"
  mwCloseErr : Option String := Option.none

/-- Model of `http.NewRequest(method, url, body)`: the stdlib may reject
the method/URL (`newRequestErr`); otherwise the fresh request carries the
given body and empty headers. -/
def newRequest (sl : Stdlib) (m u : String) (b : Body) : Outcome Request :=
  match sl.newRequestErr m u with
  | some e => .err e
  | Option.none => .ok { method := m, url := u, body := b }

/-- `req.Header.Set`. -/
def headerSet (req : Request) (k v : String) : Request :=
  { req with headers := valuesSet req.headers k v }

/-- `req.Header.Add`. -/
def headerAdd (req : Request) (k v : String) : Request :=
  { req with headers := valuesAdd req.headers k v }

/-- `createBasicJSONRequest` from `request.go`. -/
def createBasicJSONRequest (sl : Stdlib) (httpMethod userURL : String)
    (ro : RequestOptions) : Outcome Request :=
  match sl.jsonEncode ro.JSON with
  | .error e => .err e
  | .ok s =>
    match newRequest sl httpMethod userURL (.buffer s) with
    | .ok req => .ok (headerSet req "Content-Type" "application/json")
    | .err e => .err e
    | .panics m => .panics m

/-- `createBasicXMLRequest` from `request.go`. -/
def createBasicXMLRequest (sl : Stdlib) (httpMethod userURL : String)
    (ro : RequestOptions) : Outcome Request :=
  match sl.xmlEncode ro.XML with
  | .error e => .err e
  | .ok s =>
    match newRequest sl httpMethod userURL (.buffer s) with
    | .ok req => .ok (headerSet req "Content-Type" "application/xml")
    | .err e => .err e
    | .panics m => .panics m

/-- `encodePostValues` applied to `ro.Data`; `createBasicRequest` from
`request.go` sets the form content type on the result. -/
def createBasicRequest (sl : Stdlib) (httpMethod userURL : String)
    (ro : RequestOptions) : Outcome Request :=
  match newRequest sl httpMethod userURL (.buffer (encodePostValues (ro.Data.getD []))) with
  | .ok req => .ok (headerSet req "Content-Type" "application/x-www-form-urlencoded")
  | .err e => .err e
  | .panics m => .panics m

/-- Serialization of the multipart form produced by `mime/multipart`: one
file part named `file`, then one field part per `Data` entry. -/
def multipartBody (boundary fileName : String) (fileBytes : List Nat)
    (fields : List (String × String)) : String :=
  "--" ++ boundary ++
  "\r\nContent-Disposition: form-data; name=\"file\"; filename=\"" ++ fileName ++
  "\"\r\nContent-Type: application/octet-stream\r\n\r\n" ++
  String.mk (fileBytes.map Char.ofNat) ++ "\r\n" ++
  String.join (fields.map (fun p =>
    "--" ++ boundary ++ "\r\nContent-Disposition: form-data; name=\"" ++ p.1 ++
    "\"\r\n\r\n" ++ p.2 ++ "\r\n")) ++
  "--" ++ boundary ++ "--\r\n"

/-- `createMultiPartPostRequest` from `request.go`, instrumented with the
number of times `ro.File.FileContents.Close()` runs (the second component).
The source places `defer ...Close()` AFTER the `io.Copy` error return, so a
non-`io.EOF` copy failure exits with no close registered. `CreateFormFile`
on a fresh writer over a `bytes.Buffer` cannot fail and is modelled as
succeeding; `WriteField` errors are discarded by the source. -/
def createMultiPartPostRequest (sl : Stdlib) (httpMethod userURL : String)
    (ro : RequestOptions) : Outcome Request × Nat :=
  match ro.File with
  | Option.none => (.panics "runtime error: invalid memory address or nil pointer dereference", 0)
  | some f =>
    match f.FileContents with
    | Option.none => (.err "grequests: Pointer FileContents cannot be nil", 0)
    | some fs =>
      match fs.copyErr with
      | some (.other e) => (.err e, 0)
      | _ =>
        match sl.mwCloseErr with
        | some e => (.err e, 1)
        | Option.none =>
          match sl.newRequestErr httpMethod userURL with
          | some e => (.err e, 1)
          | Option.none =>
            (.ok { method := httpMethod, url := userURL,
                   body := .buffer (multipartBody sl.mwBoundary f.FileName fs.contents
                     (ro.Data.getD [])),
                   headers := valuesAdd [] "Content-Type"
                     ("multipart/form-data; boundary=" ++ sl.mwBoundary) }, 1)

/-- The builtin extension table of Go's `mime` package
(`builtinTypesLower`; OS-specific extensions are not modelled). -/
def builtinTypes : List (String × String) :=
  [(".css", "text/css; charset=utf-8"),
   (".gif", "image/gif"),
   (".htm", "text/html; charset=utf-8"),
   (".html", "text/html; charset=utf-8"),
   (".jpg", "image/jpeg"),
   (".js", "text/javascript; charset=utf-8"),
   (".pdf", "application/pdf"),
   (".png", "image/png"),
   (".svg", "image/svg+xml"),
   (".xml", "text/xml; charset=utf-8")]

def lookupStr (l : List (String × String)) (k : String) : Option String :=
  match l with
  | [] => Option.none
  | (k', v) :: rest => if k' = k then some v else lookupStr rest k

def strToLower (s : String) : String := String.mk (s.data.map Char.toLower)

/-- Model of Go `mime.TypeByExtension`: exact lookup of the ARGUMENT in the
extension table (retrying lowercased), else `""` (unknown). Note it does
not extract an extension from its argument. -/
def mimeTypeByExtension (ext : String) : String :=
  match lookupStr builtinTypes ext with
  | some t => t
  | Option.none =>
    match lookupStr builtinTypes (strToLower ext) with
    | some t => t
    | Option.none => ""

/-- Model of Go `path/filepath.Ext`: the suffix starting at the final dot,
or `""` when the name has no dot. -/
def filepathExt (name : String) : String :=
  let rev := name.data.reverse
  if rev.contains '.' then String.mk ('.' :: (rev.takeWhile (fun c => c ≠ '.')).reverse)
  else ""

/-- `createFileUploadRequest` from `request.go`: POST delegates to the
multipart builder; any other verb puts the raw stream in the body and sets
the content type to `mime.TypeByExtension(ro.File.FileName)`. -/
def createFileUploadRequest (sl : Stdlib) (httpMethod userURL : String)
    (ro : RequestOptions) : Outcome Request :=
  if httpMethod = "POST" then (createMultiPartPostRequest sl httpMethod userURL ro).1
  else
    match ro.File with
    | Option.none => .panics "runtime error: invalid memory address or nil pointer dereference"
    | some f =>
      let b : Body := match f.FileContents with
        | some fs => .stream fs
        | Option.none => .empty
      match newRequest sl httpMethod userURL b with
      | .ok req => .ok (headerSet req "Content-Type" (mimeTypeByExtension f.FileName))
      | .err e => .err e
      | .panics m => .panics m

/-- `buildHTTPRequest` from `request.go`: first-match body dispatch in the
source's order JSON, XML, File, Data, else a body-less request. -/
def buildHTTPRequest (sl : Stdlib) (httpMethod userURL : String)
    (ro : RequestOptions) : Outcome Request :=
  if ro.JSON.isSome then createBasicJSONRequest sl httpMethod userURL ro
  else if ro.XML.isSome then createBasicXMLRequest sl httpMethod userURL ro
  else if ro.File.isSome then createFileUploadRequest sl httpMethod userURL ro
  else if ro.Data.isSome then createBasicRequest sl httpMethod userURL ro
  else newRequest sl httpMethod userURL .empty

/-- The `for key, value := range params { parsedQuery.Set(key, value) }`
loop of `buildURLParams` (map iteration order modelled by the list order). -/
def overlayParams (params : List (String × String)) (q : URLValues) : URLValues :=
  params.foldl (fun acc p => valuesSet acc p.1 p.2) q

def replaceAllGo (pat nw : List Char) : Nat → List Char → List Char
  | _, [] => []
  | 0, l => l
  | fuel + 1, c :: rest =>
    if pat.isPrefixOf (c :: rest) then
      nw ++ replaceAllGo pat nw fuel ((c :: rest).drop pat.length)
    else c :: replaceAllGo pat nw fuel rest

/-- Model of Go `strings.Replace(s, old, new, -1)`: replace every
non-overlapping occurrence, left to right. The `old = ""` case never
arises in this code base (the pattern always starts with `?`) and is
modelled as the identity. Fuelled so it reduces by evaluation. -/
def stringReplaceAll (s old nw : String) : String :=
  if old.data = [] then s
  else String.mk (replaceAllGo old.data nw.data s.data.length s.data)

/-- `buildURLParams` from `request.go`. NOTE: the source assigns the error
of `url.ParseQuery` to `err` but never checks it, so a malformed query
string is silently ignored; only a `url.Parse` failure is returned. -/
def buildURLParams (sl : Stdlib) (userURL : String)
    (params : List (String × String)) : Except String String :=
  match sl.urlParse userURL with
  | .error e => .error e
  | .ok parsedURL =>
    let parsedQuery := (sl.urlParseQuery parsedURL.rawQuery).1
    let q := overlayParams params parsedQuery
    .ok (stringReplaceAll parsedURL.urlString ("?" ++ parsedURL.rawQuery) "" ++ "?" ++
      valuesEncode q)

/-- Modelled from the spec: `localUserAgent` (declared outside the provided
source file) is "a fixed default identifier" for the User-Agent header. -/
def localUserAgent : String := "GRequests/0.10"

/-- `addHTTPHeaders` from `request.go`. `req.SetBasicAuth(ro.Auth[0],
ro.Auth[1])` panics when the non-nil `Auth` slice has fewer than two
elements. -/
def addHTTPHeaders (ro : RequestOptions) (req : Request) : Outcome Request :=
  let req1 := ro.Headers.foldl (fun r p => headerSet r p.1 p.2) req
  let req2 := if ro.UserAgent ≠ "" then headerSet req1 "User-Agent" ro.UserAgent
              else headerSet req1 "User-Agent" localUserAgent
  match ro.Auth with
  | Option.none =>
    .ok (if ro.IsAjax then headerSet req2 "X-Requested-With" "XMLHttpRequest" else req2)
  | some auth =>
    match auth.get? 0, auth.get? 1 with
    | some u, some p =>
      let req3 := { req2 with basicAuth := some (u, p) }
      .ok (if ro.IsAjax then headerSet req3 "X-Requested-With" "XMLHttpRequest" else req3)
    | _, _ => .panics "runtime error: index out of range"

/-- `addCookies` from `request.go`: append every cookie to the request. -/
def addCookies (ro : RequestOptions) (req : Request) : Request :=
  { req with cookies := req.cookies ++ ro.Cookies }

/-- Default `net.Dialer` timeout (seconds). -/
def dialTimeout : Nat := 30

/-- Default `net.Dialer` keep-alive (seconds). -/
def dialKeepAlive : Nat := 30

/-- Default `http.Transport` TLS handshake timeout (seconds). -/
def tslHandshakeTimeout : Nat := 10

/-- The configuration of a dedicated (custom) client's transport. -/
structure TransportConfig where
  tlsHandshakeTimeout : Nat
  dialTimeout : Nat
  dialKeepAlive : Nat
  insecureSkipVerify : Bool
  disableCompression : Bool
  proxies : List (String × String)
  hasCookieJar : Bool
deriving DecidableEq

/-- The client `BuildHTTPClient` hands back: the process-wide
`http.DefaultClient`, the caller-supplied client, or a freshly built one. -/
inductive BuiltClient
  | defaultClient
  | supplied (c : Nat)
  | custom (cfg : TransportConfig)
deriving DecidableEq

/-- `RequestOptions.DontUseDefaultClient` from `request.go`. -/
def RequestOptions.DontUseDefaultClient (ro : RequestOptions) : Bool :=
  ro.InsecureSkipVerify == true ||
  ro.DisableCompression == true ||
  ro.Proxies.length != 0 ||
  ro.TLSHandshakeTimeout != 0 ||
  ro.DialTimeout != 0 ||
  ro.DialKeepAlive != 0 ||
  ro.Cookies.length != 0 ||
  ro.UseCookieJar != false

/-- `BuildHTTPClient` from `request.go`. -/
def BuildHTTPClient (ro : RequestOptions) : BuiltClient :=
  match ro.HTTPClient with
  | some c => .supplied c
  | Option.none =>
    if !ro.DontUseDefaultClient then .defaultClient
    else
      .custom {
        tlsHandshakeTimeout :=
          if ro.TLSHandshakeTimeout = 0 then tslHandshakeTimeout else ro.TLSHandshakeTimeout,
        dialTimeout := if ro.DialTimeout = 0 then dialTimeout else ro.DialTimeout,
        dialKeepAlive := if ro.DialKeepAlive = 0 then dialKeepAlive else ro.DialKeepAlive,
        insecureSkipVerify := ro.InsecureSkipVerify,
        disableCompression := ro.DisableCompression,
        proxies := ro.Proxies,
        hasCookieJar := true }

/-- `RequestOptions.proxySettings` from `request.go`. The ambient resolver
`http.ProxyFromEnvironment` is passed in as `envProxy` (its result for the
request at hand); `reqScheme` is `req.URL.Scheme`. -/
def RequestOptions.proxySettings (ro : RequestOptions)
    (envProxy : Except String (Option String)) (reqScheme : String) :
    Except String (Option String) :=
  if ro.Proxies.length = 0 then envProxy
  else
    match lookupStr ro.Proxies reqScheme with
    | some u => .ok (some u)
    | Option.none => envProxy

/-- `buildRequest` from `request.go`, up to the hand-off to the transport:
a successful outcome is the (client, fully assembled request) pair that
`httpClient.Do` would receive; an error means nothing is dispatched. -/
def buildRequest (sl : Stdlib) (httpMethod url0 : String)
    (ro0 : Option RequestOptions) (httpClient : Option Nat) :
    Outcome (BuiltClient × Request) :=
  let ro := ro0.getD {}
  let client := match httpClient with
    | some c => BuiltClient.supplied c
    | Option.none => BuildHTTPClient ro
  let urlRes : Except String String :=
    if ro.Params.length ≠ 0 then buildURLParams sl url0 ro.Params else .ok url0
  match urlRes with
  | .error e => .err e
  | .ok url1 =>
    match buildHTTPRequest sl httpMethod url1 ro with
    | .err e => .err e
    | .panics m => .panics m
    | .ok req =>
      match addHTTPHeaders ro req with
      | .err e => .err e
      | .panics m => .panics m
      | .ok req2 => .ok (client, addCookies ro req2)

example : stringReplaceAll "http://e.com/p?a=1" "?a=1" "" = "http://e.com/p" := by decide

/-- A concrete standard-library environment used to evaluate the model on
explicit inputs: it parses the two URLs used in the concrete theorems the
way Go's `net/url` does, and its `http.NewRequest` never rejects. -/
def okStdlib : Stdlib where
  urlParse := fun s =>
    if s = "http://example.com/path?a=%zz" then
      .ok { urlString := "http://example.com/path?a=%zz", rawQuery := "a=%zz" }
    else if s = "http://example.com/path?dup=old&keep=1" then
      .ok { urlString := "http://example.com/path?dup=old&keep=1",
            rawQuery := "dup=old&keep=1" }
    else .error "parse error"
  urlParseQuery := fun q =>
    if q = "a=%zz" then ([], some "invalid URL escape \"%zz\"")
    else if q = "dup=old&keep=1" then ([("dup", ["old"]), ("keep", ["1"])], Option.none)
    else ([], Option.none)
  jsonEncode := fun v => .ok ("json:" ++ v.getD "null")
  xmlEncode := fun v => .ok ("xml:" ++ v.getD "nil")
  newRequestErr := fun _ _ => Option.none

theorem valuesGet_valuesSet_self (vs : URLValues) (k v : String) :
    valuesGet (valuesSet vs k v) k = some [v] := by
  induction vs with
  | nil => simp [valuesSet, valuesGet]
  | cons p rest ih =>
    obtain ⟨k', v'⟩ := p
    by_cases h : k' = k
    · simp [valuesSet, valuesGet, h]
    · simp [valuesSet, valuesGet, h, ih]

theorem valuesGet_valuesSet_ne (vs : URLValues) (k v k' : String) (h : k' ≠ k) :
    valuesGet (valuesSet vs k v) k' = valuesGet vs k' := by
  induction vs with
  | nil => simp [valuesSet, valuesGet, Ne.symm h]
  | cons p rest ih =>
    obtain ⟨k0, v0⟩ := p
    by_cases h0 : k0 = k
    · subst h0
      simp [valuesSet, valuesGet, Ne.symm h]
    · by_cases h1 : k0 = k'
      · simp [valuesSet, valuesGet, h0, h1, h]
      · simp [valuesSet, valuesGet, h0, h1, ih]

theorem overlay_not_mem :
    ∀ (params : List (String × String)) (q : URLValues) (k : String),
      k ∉ params.map Prod.fst →
      valuesGet (overlayParams params q) k = valuesGet q k
  | [], _, _, _ => rfl
  | (k0, v0) :: rest, q, k, h => by
    have hk : k ≠ k0 := by
      intro e; exact h (by simp [e])
    have hr : k ∉ rest.map Prod.fst := by
      intro e; exact h (by simp [e])
    show valuesGet (overlayParams rest (valuesSet q k0 v0)) k = valuesGet q k
    rw [overlay_not_mem rest (valuesSet q k0 v0) k hr]
    exact valuesGet_valuesSet_ne q k0 v0 k hk

theorem overlay_mem :
    ∀ (params : List (String × String)) (q : URLValues) (k v : String),
      (params.map Prod.fst).Nodup → (k, v) ∈ params →
      valuesGet (overlayParams params q) k = some [v]
  | [], _, _, _, _, hm => by cases hm
  | (k0, v0) :: rest, q, k, v, hnd, hm => by
    rcases List.mem_cons.mp hm with he | hr
    · obtain ⟨e1, e2⟩ := Prod.mk.injEq .. ▸ he
      subst e1; subst e2
      have hk0 : k ∉ rest.map Prod.fst := by
        have := hnd
        simp only [List.map_cons, List.nodup_cons] at this
        exact this.1
      show valuesGet (overlayParams rest (valuesSet q k v)) k = some [v]
      rw [overlay_not_mem rest (valuesSet q k v) k hk0]
      exact valuesGet_valuesSet_self q k v
    · have hnd' : (rest.map Prod.fst).Nodup := by
        simp only [List.map_cons, List.nodup_cons] at hnd
        exact hnd.2
      exact overlay_mem rest (valuesSet q k0 v0) k v hnd' hr

theorem valuesSet_fresh :
    ∀ (vs : URLValues) (k v : String), (∀ p ∈ vs, p.1 ≠ k) →
      valuesSet vs k v = vs ++ [(k, [v])]
  | [], _, _, _ => rfl
  | (k0, v0) :: rest, k, v, h => by
    have hk : k0 ≠ k := h (k0, v0) (by simp)
    simp only [valuesSet, if_neg hk, List.cons_append, List.cons.injEq, true_and]
    exact valuesSet_fresh rest k v (fun p hp => h p (by simp [hp]))

theorem overlay_nil_eq_map :
    ∀ (l : List (String × String)) (acc : URLValues),
      (l.map Prod.fst).Nodup → (∀ p ∈ acc, p.1 ∉ l.map Prod.fst) →
      overlayParams l acc = acc ++ l.map (fun p => (p.1, [p.2]))
  | [], acc, _, _ => by simp [overlayParams]
  | (k0, v0) :: rest, acc, hnd, hacc => by
    simp only [List.map_cons, List.nodup_cons] at hnd
    have hfresh : ∀ p ∈ acc, p.1 ≠ k0 := by
      intro p hp
      intro e
      exact hacc p hp (by simp [e])
    show overlayParams rest (valuesSet acc k0 v0) = _
    rw [valuesSet_fresh acc k0 v0 hfresh]
    rw [overlay_nil_eq_map rest (acc ++ [(k0, [v0])]) hnd.2 ?fresh]
    · simp
    case fresh =>
      intro p hp
      rcases List.mem_append.mp hp with h1 | h2
      · intro hin
        exact hacc p h1 (by simp [hin])
      · simp only [List.mem_singleton] at h2
        subst h2
        exact hnd.1

/-- The `keyLE` order together with key distinctness; antisymmetric, which
lets two sorted permutations with `Nodup` keys be identified. -/
def keyLTNe (p q : String × List String) : Prop := keyLE p q ∧ p.1 ≠ q.1

instance : IsAntisymm (String × List String) keyLTNe :=
  ⟨fun p q h1 h2 => by
    exfalso
    apply h1.2
    exact congrArg String.mk (charListLe_antisymm p.1.data q.1.data h1.1 h2.1)⟩

theorem sortPairs_perm (l : URLValues) : (sortPairs l).Perm l :=
  List.perm_insertionSort keyLE l

theorem sortPairs_sorted (l : URLValues) : (sortPairs l).Sorted keyLE :=
  List.sorted_insertionSort keyLE l

theorem sortPairs_eq_of_perm (l₁ l₂ : URLValues) (hp : l₁.Perm l₂)
    (hn : (l₁.map Prod.fst).Nodup) : sortPairs l₁ = sortPairs l₂ := by
  have hperm : (sortPairs l₁).Perm (sortPairs l₂) :=
    ((sortPairs_perm l₁).trans hp).trans (sortPairs_perm l₂).symm
  have hn₁ : ((sortPairs l₁).map Prod.fst).Nodup :=
    (((sortPairs_perm l₁).map Prod.fst).nodup_iff).mpr hn
  have hn₂ : ((sortPairs l₂).map Prod.fst).Nodup :=
    ((hperm.map Prod.fst).nodup_iff).mp hn₁
  have hs₁ : (sortPairs l₁).Pairwise keyLTNe := by
    have hne : (sortPairs l₁).Pairwise (fun p q => p.1 ≠ q.1) :=
      List.pairwise_map.mp hn₁
    exact (sortPairs_sorted l₁).and hne
  have hs₂ : (sortPairs l₂).Pairwise keyLTNe := by
    have hne : (sortPairs l₂).Pairwise (fun p q => p.1 ≠ q.1) :=
      List.pairwise_map.mp hn₂
    exact (sortPairs_sorted l₂).and hne
  exact List.eq_of_perm_of_sorted hperm hs₁ hs₂

theorem valuesEncode_eq_of_perm (l₁ l₂ : URLValues) (hp : l₁.Perm l₂)
    (hn : (l₁.map Prod.fst).Nodup) : valuesEncode l₁ = valuesEncode l₂ := by
  unfold valuesEncode
  rw [sortPairs_eq_of_perm l₁ l₂ hp hn]

theorem encodePostValues_eq_overlay (l : List (String × String))
    (hn : (l.map Prod.fst).Nodup) :
    encodePostValues l = valuesEncode (l.map (fun p => (p.1, [p.2]))) := by
  unfold encodePostValues
  have := overlay_nil_eq_map l [] hn (by intro p hp; cases hp)
  unfold overlayParams at this
  rw [this]
  simp

theorem createBasicJSONRequest_ok (sl : Stdlib) (m u : String) (ro : RequestOptions)
    (req : Request) (h : createBasicJSONRequest sl m u ro = .ok req) :
    ∃ s, sl.jsonEncode ro.JSON = .ok s ∧ req.body = .buffer s ∧
      valuesGet req.headers "Content-Type" = some ["application/json"] := by
  unfold createBasicJSONRequest at h
  cases hj : sl.jsonEncode ro.JSON with
  | error e => rw [hj] at h; cases h
  | ok s =>
    rw [hj] at h
    unfold newRequest at h
    cases hn : sl.newRequestErr m u with
    | some e => rw [hn] at h; cases h
    | none =>
      rw [hn] at h
      cases h
      exact ⟨s, rfl, rfl, rfl⟩

theorem createBasicJSONRequest_no_panic (sl : Stdlib) (m u : String)
    (ro : RequestOptions) (msg : String) :
    createBasicJSONRequest sl m u ro ≠ .panics msg := by
  unfold createBasicJSONRequest newRequest
  cases sl.jsonEncode ro.JSON <;> [skip; cases sl.newRequestErr m u] <;> simp

theorem createBasicXMLRequest_no_panic (sl : Stdlib) (m u : String)
    (ro : RequestOptions) (msg : String) :
    createBasicXMLRequest sl m u ro ≠ .panics msg := by
  unfold createBasicXMLRequest newRequest
  cases sl.xmlEncode ro.XML <;> [skip; cases sl.newRequestErr m u] <;> simp

theorem createBasicRequest_no_panic (sl : Stdlib) (m u : String)
    (ro : RequestOptions) (msg : String) :
    createBasicRequest sl m u ro ≠ .panics msg := by
  unfold createBasicRequest newRequest
  cases sl.newRequestErr m u <;> simp

theorem createMultiPartPostRequest_no_panic (sl : Stdlib) (m u : String)
    (ro : RequestOptions) (f : FileUpload) (hf : ro.File = some f) (msg : String) :
    (createMultiPartPostRequest sl m u ro).1 ≠ .panics msg := by
  unfold createMultiPartPostRequest
  rw [hf]
  cases hfc : f.FileContents with
  | none => simp [hfc]
  | some fs =>
    simp only [hfc]
    cases hce : fs.copyErr with
    | some ce =>
      cases ce with
      | other e => simp [hce]
      | eofErr =>
        simp only [hce]
        cases hcl : sl.mwCloseErr with
        | some e => simp [hcl]
        | none =>
          simp only [hcl]
          cases hnr : sl.newRequestErr m u with
          | some e => simp [hnr]
          | none => simp [hnr]
    | none =>
      simp only [hce]
      cases hcl : sl.mwCloseErr with
      | some e => simp [hcl]
      | none =>
        simp only [hcl]
        cases hnr : sl.newRequestErr m u with
        | some e => simp [hnr]
        | none => simp [hnr]

theorem createFileUploadRequest_no_panic (sl : Stdlib) (m u : String)
    (ro : RequestOptions) (f : FileUpload) (hf : ro.File = some f) (msg : String) :
    createFileUploadRequest sl m u ro ≠ .panics msg := by
  unfold createFileUploadRequest
  by_cases hm : m = "POST"
  · rw [if_pos hm]
    exact createMultiPartPostRequest_no_panic sl m u ro f hf msg
  · rw [if_neg hm, hf]
    unfold newRequest
    cases hnr : sl.newRequestErr m u <;> simp

theorem buildHTTPRequest_no_panic (sl : Stdlib) (m u : String) (ro : RequestOptions)
    (msg : String) : buildHTTPRequest sl m u ro ≠ .panics msg := by
  unfold buildHTTPRequest
  by_cases hJ : ro.JSON.isSome
  · simp only [hJ, if_true]
    exact createBasicJSONRequest_no_panic sl m u ro msg
  · simp only [hJ, if_false]
    by_cases hX : ro.XML.isSome
    · simp only [hX, if_true]
      exact createBasicXMLRequest_no_panic sl m u ro msg
    · simp only [hX, if_false]
      by_cases hF : ro.File.isSome
      · simp only [hF, if_true]
        obtain ⟨f, hf⟩ := Option.isSome_iff_exists.mp hF
        exact createFileUploadRequest_no_panic sl m u ro f hf msg
      · simp only [hF, if_false]
        by_cases hD : ro.Data.isSome
        · simp only [hD, if_true]
          exact createBasicRequest_no_panic sl m u ro msg
        · simp only [hD, if_false]
          unfold newRequest
          cases sl.newRequestErr m u <;> simp

theorem addHTTPHeaders_ok_of_auth (ro : RequestOptions) (req : Request)
    (ha : ro.Auth = Option.none ∨ ∃ x y rest, ro.Auth = some (x :: y :: rest)) :
    ∃ req', addHTTPHeaders ro req = .ok req' := by
  unfold addHTTPHeaders
  rcases ha with h | ⟨x, y, rest, h⟩
  · rw [h]; exact ⟨_, rfl⟩
  · rw [h]; exact ⟨_, rfl⟩

theorem addHTTPHeaders_auth (ro : RequestOptions) (req : Request)
    (x y : String) (rest : List String) (h : ro.Auth = some (x :: y :: rest)) :
    ∃ req', addHTTPHeaders ro req = .ok req' ∧ req'.basicAuth = some (x, y) := by
  unfold addHTTPHeaders
  rw [h]
  by_cases haj : ro.IsAjax
  · exact ⟨_, rfl, by simp [haj, headerSet]⟩
  · exact ⟨_, rfl, by simp [haj, headerSet]⟩

theorem dontUseDefaultClient_iff (ro : RequestOptions) :
    ro.DontUseDefaultClient = true ↔
      (ro.InsecureSkipVerify = true ∨ ro.DisableCompression = true ∨
       ro.Proxies ≠ [] ∨ ro.TLSHandshakeTimeout ≠ 0 ∨ ro.DialTimeout ≠ 0 ∨
       ro.DialKeepAlive ≠ 0 ∨ ro.Cookies ≠ [] ∨ ro.UseCookieJar = true) := by
  unfold RequestOptions.DontUseDefaultClient
  simp only [Bool.or_eq_true, beq_iff_eq, bne_iff_ne, ne_eq, List.length_eq_zero,
    Bool.not_eq_false]
  tauto

/-- C1: the multipart POST body encoder is claimed to close the file's byte
stream exactly once on every path. The code registers `defer
FileContents.Close()` only AFTER the `io.Copy` error return, so on a
non-`io.EOF` copy failure the stream is closed zero times; on the success
and writer-close-failure paths it is closed exactly once. The first
conjunct evaluates the failing input; the others show the neighbouring
paths do close once. -/
theorem C1_close_skipped_on_copy_error :
    createMultiPartPostRequest okStdlib "POST" "http://example.com/up"
        { File := some { FileName := "a.txt",
                         FileContents := some { contents := [104, 105],
                                                copyErr := some (.other "read failure") } } } =
      (.err "read failure", 0) ∧
    (createMultiPartPostRequest okStdlib "POST" "http://example.com/up"
        { File := some { FileName := "a.txt",
                         FileContents := some { contents := [104, 105] } } }).2 = 1 ∧
    createMultiPartPostRequest { okStdlib with mwCloseErr := some "close failed" }
        "POST" "http://example.com/up"
        { File := some { FileName := "a.txt",
                         FileContents := some { contents := [104, 105] } } } =
      (.err "close failed", 1) := by
  refine ⟨rfl, rfl, rfl⟩

/-- C2: body-encoding selection follows the fixed first-match order JSON,
XML, File, Data, else bodyless; with both JSON and XML set the JSON path is
taken, the body is the JSON encoding and the content type is
`application/json` (the XML value is ignored). -/
theorem C2_body_selection (sl : Stdlib) (m u : String) (ro : RequestOptions) :
    (ro.JSON.isSome = true →
      buildHTTPRequest sl m u ro = createBasicJSONRequest sl m u ro) ∧
    (ro.JSON = Option.none → ro.XML.isSome = true →
      buildHTTPRequest sl m u ro = createBasicXMLRequest sl m u ro) ∧
    (ro.JSON = Option.none → ro.XML = Option.none → ro.File.isSome = true →
      buildHTTPRequest sl m u ro = createFileUploadRequest sl m u ro) ∧
    (ro.JSON = Option.none → ro.XML = Option.none → ro.File = Option.none →
      ro.Data.isSome = true →
      buildHTTPRequest sl m u ro = createBasicRequest sl m u ro) ∧
    (ro.JSON = Option.none → ro.XML = Option.none → ro.File = Option.none →
      ro.Data = Option.none →
      buildHTTPRequest sl m u ro = newRequest sl m u .empty) ∧
    (∀ j x req, ro.JSON = some j → ro.XML = some x →
      buildHTTPRequest sl m u ro = .ok req →
      ∃ s, sl.jsonEncode (some j) = .ok s ∧ req.body = .buffer s ∧
        valuesGet req.headers "Content-Type" = some ["application/json"]) := by
  refine ⟨?_, ?_, ?_, ?_, ?_, ?_⟩
  · intro h1; simp [buildHTTPRequest, h1]
  · intro h1 h2; simp [buildHTTPRequest, h1, h2]
  · intro h1 h2 h3; simp [buildHTTPRequest, h1, h2, h3]
  · intro h1 h2 h3 h4; simp [buildHTTPRequest, h1, h2, h3, h4]
  · intro h1 h2 h3 h4; simp [buildHTTPRequest, h1, h2, h3, h4]
  · intro j x req hj hx hok
    have h1 : buildHTTPRequest sl m u ro = createBasicJSONRequest sl m u ro := by
      simp [buildHTTPRequest, hj]
    rw [h1] at hok
    obtain ⟨s, hs, hb, hh⟩ := createBasicJSONRequest_ok sl m u ro req hok
    rw [hj] at hs
    exact ⟨s, hs, hb, hh⟩

/-- C3: the claim says a malformed query string aborts the build with a
`URLParseError`. The code captures the error of `url.ParseQuery` but never
checks it: on `?a=%zz` (whose parse reports `invalid URL escape`) the build
succeeds, the malformed pair is silently dropped, and a request is handed
to the transport; only a `url.Parse` failure (last conjunct) is surfaced. -/
theorem C3_query_parse_error_dropped :
    (okStdlib.urlParseQuery "a=%zz").2 = some "invalid URL escape \"%zz\"" ∧
    buildURLParams okStdlib "http://example.com/path?a=%zz" [("b", "2")] =
      .ok "http://example.com/path?b=2" ∧
    buildRequest okStdlib "GET" "http://example.com/path?a=%zz"
        (some { Params := [("b", "2")] }) Option.none =
      .ok (BuiltClient.defaultClient,
        { method := "GET", url := "http://example.com/path?b=2", body := .empty,
          headers := valuesSet [] "User-Agent" localUserAgent }) ∧
    buildRequest okStdlib "GET" "not-a-url" (some { Params := [("b", "2")] })
        Option.none = .err "parse error" := by
  refine ⟨rfl, rfl, by decide, by decide⟩

/-- C4 counterexample: request assembly CAN abort the process for an
options bag with `Auth` set (non-nil): a non-nil `Auth` slice with fewer
than two elements makes `ro.Auth[0]`/`ro.Auth[1]` panic with an
index-out-of-range runtime error. -/
theorem C4_short_auth_panics :
    addHTTPHeaders { Auth := some [] }
        { method := "GET", url := "http://example.com", body := .empty } =
      .panics "runtime error: index out of range" ∧
    buildRequest okStdlib "GET" "http://example.com"
        (some { Auth := some ["alice"] }) Option.none =
      .panics "runtime error: index out of range" := by
  refine ⟨rfl, rfl⟩

/-- C4 (amended): request assembly never aborts — every failure is a
returned error — provided the options bag's `Auth` is nil or has at least
two elements; in that case header/auth/cookie attachment cannot fail and
element 0 is used as username, element 1 as password. -/
theorem C4_no_abort_wellformed_auth (sl : Stdlib) (m u : String)
    (ro : RequestOptions) (hc : Option Nat)
    (ha : ro.Auth = Option.none ∨ ∃ x y rest, ro.Auth = some (x :: y :: rest)) :
    (∀ msg, buildRequest sl m u (some ro) hc ≠ .panics msg) ∧
    (∀ req x y rest, ro.Auth = some (x :: y :: rest) →
      ∃ req', addHTTPHeaders ro req = .ok req' ∧ req'.basicAuth = some (x, y)) := by
  constructor
  · intro msg
    unfold buildRequest
    dsimp only [Option.getD_some]
    cases hurl : (if ro.Params.length ≠ 0 then buildURLParams sl u ro.Params
                  else Except.ok u) with
    | error e => simp [hurl]
    | ok url1 =>
      cases hreq : buildHTTPRequest sl m url1 ro with
      | err e => simp [hurl, hreq]
      | panics mm => exact absurd hreq (buildHTTPRequest_no_panic sl m url1 ro mm)
      | ok req =>
        obtain ⟨req', hr⟩ := addHTTPHeaders_ok_of_auth ro req ha
        simp [hurl, hreq, hr]
  · intro req x y rest h
    exact addHTTPHeaders_auth ro req x y rest h

/-- C5: with no explicit `HTTPClient`, the Client Builder returns the
process-wide shared default client exactly when none of the dedicated
conditions holds (TLS verification disabled, compression disabled, a proxy
entry, non-zero TLS-handshake/dial/keep-alive timeout, a cookie, or
cookie-jar use); a supplied `HTTPClient` is returned unconditionally. -/
theorem C5_client_builder_decision (ro : RequestOptions) :
    (ro.HTTPClient = Option.none →
      (BuildHTTPClient ro = .defaultClient ↔
        ¬(ro.InsecureSkipVerify = true ∨ ro.DisableCompression = true ∨
          ro.Proxies ≠ [] ∨ ro.TLSHandshakeTimeout ≠ 0 ∨ ro.DialTimeout ≠ 0 ∨
          ro.DialKeepAlive ≠ 0 ∨ ro.Cookies ≠ [] ∨ ro.UseCookieJar = true))) ∧
    (∀ c, ro.HTTPClient = some c → BuildHTTPClient ro = .supplied c) := by
  constructor
  · intro h
    unfold BuildHTTPClient
    rw [h, ← dontUseDefaultClient_iff]
    cases hd : ro.DontUseDefaultClient with
    | true => simp [hd]
    | false => simp [hd]
  · intro c h
    unfold BuildHTTPClient
    rw [h]

/-- C6: when the URL parses and `Params` is a non-empty map, the rewritten
URL is the original URL stripped of its raw query, a `?`, and the merged
query re-encoded; every `Params` key maps to its `Params` value (caller
wins on collision), every existing key not in `Params` keeps its values,
and the re-encoded pair list is in the encoder's sorted key order. -/
theorem C6_param_overlay (sl : Stdlib) (userURL : String)
    (params : List (String × String)) (u : ParsedURL)
    (hp : sl.urlParse userURL = .ok u) (hq : u.rawQuery ≠ "")
    (hne : params ≠ []) (hnd : (params.map Prod.fst).Nodup) :
    buildURLParams sl userURL params =
      .ok (stringReplaceAll u.urlString ("?" ++ u.rawQuery) "" ++ "?" ++
        valuesEncode (overlayParams params (sl.urlParseQuery u.rawQuery).1)) ∧
    (∀ k v, (k, v) ∈ params →
      valuesGet (overlayParams params (sl.urlParseQuery u.rawQuery).1) k = some [v]) ∧
    (∀ k, k ∉ params.map Prod.fst →
      valuesGet (overlayParams params (sl.urlParseQuery u.rawQuery).1) k =
        valuesGet (sl.urlParseQuery u.rawQuery).1 k) ∧
    ((sortPairs (overlayParams params (sl.urlParseQuery u.rawQuery).1)).map
      Prod.fst).Pairwise (fun a b => charListLe a.data b.data = true) := by
  refine ⟨?_, ?_, ?_, ?_⟩
  · unfold buildURLParams
    rw [hp]
  · intro k v hm; exact overlay_mem params _ k v hnd hm
  · intro k hk; exact overlay_not_mem params _ k hk
  · exact List.pairwise_map.mpr (sortPairs_sorted _)

/-- C7: the form body encoder is insertion-order independent (any two
permutations of a duplicate-free `Data` map encode identically), the map
`b↦2, a↦1` encodes as `a=1&b=2`, and the form path stamps
`application/x-www-form-urlencoded`. -/
theorem C7_form_encoding (l₁ l₂ : List (String × String)) :
    (l₁.Perm l₂ → (l₁.map Prod.fst).Nodup →
      encodePostValues l₁ = encodePostValues l₂) ∧
    encodePostValues [("b", "2"), ("a", "1")] = "a=1&b=2" ∧
    (∀ sl m u ro d req, ro.Data = some d → createBasicRequest sl m u ro = .ok req →
      req.body = .buffer (encodePostValues d) ∧
      valuesGet req.headers "Content-Type" =
        some ["application/x-www-form-urlencoded"]) := by
  refine ⟨?_, by decide, ?_⟩
  · intro hp hnd
    rw [encodePostValues_eq_overlay l₁ hnd,
        encodePostValues_eq_overlay l₂ (((hp.map Prod.fst).nodup_iff).mp hnd)]
    apply valuesEncode_eq_of_perm
    · exact hp.map _
    · have hkeys : (l₁.map (fun p : String × String =>
          ((p.1, [p.2]) : String × List String))).map Prod.fst = l₁.map Prod.fst := by
        rw [List.map_map]
        rfl
      rw [hkeys]
      exact hnd
  · intro sl m u ro d req hd hok
    unfold createBasicRequest newRequest at hok
    cases hn : sl.newRequestErr m u with
    | some e => rw [hn] at hok; cases hok
    | none =>
      rw [hn] at hok
      cases hok
      constructor
      · simp [headerSet, hd]
      · rfl

/-- C8: proxy resolution per request: an empty proxy map defers to the
ambient environment resolver; a scheme hit returns the mapped proxy; a
non-empty map without the scheme falls back to the environment resolver
(and adds no error of its own). -/
theorem C8_proxy_resolution (ro : RequestOptions)
    (envProxy : Except String (Option String)) (scheme : String) :
    (ro.Proxies = [] → ro.proxySettings envProxy scheme = envProxy) ∧
    (∀ pu, lookupStr ro.Proxies scheme = some pu →
      ro.proxySettings envProxy scheme = .ok (some pu)) ∧
    (ro.Proxies ≠ [] → lookupStr ro.Proxies scheme = Option.none →
      ro.proxySettings envProxy scheme = envProxy) := by
  unfold RequestOptions.proxySettings
  refine ⟨?_, ?_, ?_⟩
  · intro h; rw [h]; rfl
  · intro pu h
    have hne : ro.Proxies ≠ [] := by
      intro e
      rw [e] at h
      cases h
    rw [if_neg (fun hl => hne (List.length_eq_zero.mp hl)), h]
  · intro hne h
    rw [if_neg (fun hl => hne (List.length_eq_zero.mp hl)), h]

/-- C9 counterexample: on the non-POST file path the code passes the WHOLE
file name (not its extension) to the MIME lookup: for `photo.png` the
extension-based guess would be `image/png`, but the built request carries
the empty (unknown) content type. -/
theorem C9_mime_uses_whole_filename :
    createFileUploadRequest okStdlib "PUT" "http://example.com/up"
        { File := some { FileName := "photo.png",
                         FileContents := some { contents := [1, 2] } } } =
      .ok { method := "PUT", url := "http://example.com/up",
            body := .stream { contents := [1, 2] },
            headers := valuesSet [] "Content-Type" "" } ∧
    mimeTypeByExtension "photo.png" = "" ∧
    filepathExt "photo.png" = ".png" ∧
    mimeTypeByExtension (filepathExt "photo.png") = "image/png" := by
  refine ⟨by decide, by decide, by decide, by decide⟩

/-- C9 (amended): for every verb other than POST with `File` set, the built
request's body is the raw byte stream with no multipart wrapping, and its
Content-Type is `mime.TypeByExtension` applied to the ENTIRE file name —
the empty/unknown fallback unless the file name itself is a bare extension
key. -/
theorem C9_nonpost_file_request (sl : Stdlib) (m u : String) (ro : RequestOptions)
    (f : FileUpload) (fs : FileStream)
    (hm : m ≠ "POST") (hf : ro.File = some f) (hfc : f.FileContents = some fs)
    (hn : sl.newRequestErr m u = Option.none) :
    createFileUploadRequest sl m u ro =
      .ok { method := m, url := u, body := .stream fs,
            headers := valuesSet [] "Content-Type" (mimeTypeByExtension f.FileName) } := by
  unfold createFileUploadRequest newRequest
  rw [if_neg hm, hf]
  simp [hfc, hn, headerSet]

/-- C10: a nil options pointer is replaced by an empty options bag before
any field is consulted, so the build behaves exactly as with all-zero
options: no crash, the shared default client, an empty body, and only the
default User-Agent header. -/
theorem C10_nil_options (sl : Stdlib) (m u : String) (hc : Option Nat) :
    buildRequest sl m u Option.none hc = buildRequest sl m u (some {}) hc ∧
    (sl.newRequestErr m u = Option.none →
      buildRequest sl m u Option.none Option.none =
        .ok (BuiltClient.defaultClient,
          { method := m, url := u, body := .empty,
            headers := valuesSet [] "User-Agent" localUserAgent })) := by
  refine ⟨rfl, fun h => ?_⟩
  unfold buildRequest buildHTTPRequest newRequest addHTTPHeaders addCookies
    BuildHTTPClient
  simp [h, RequestOptions.DontUseDefaultClient, headerSet, localUserAgent]

/-- Witness for C2 at a concrete options bag with both JSON and XML set. -/
theorem C2_witness :
    buildHTTPRequest okStdlib "POST" "http://example.com"
        { JSON := some "v", XML := some "w" } =
      createBasicJSONRequest okStdlib "POST" "http://example.com"
        { JSON := some "v", XML := some "w" } :=
  (C2_body_selection okStdlib "POST" "http://example.com"
    { JSON := some "v", XML := some "w" }).1 rfl

/-- Witness for C4 (amended) at a two-element `Auth`. -/
theorem C4_witness :
    buildRequest okStdlib "GET" "http://example.com"
        (some { Auth := some ["alice", "secret"] }) Option.none ≠
      .panics "boom" ∧
    ∃ req', addHTTPHeaders { Auth := some ["alice", "secret"] }
        { method := "GET", url := "http://example.com", body := .empty } = .ok req' ∧
      req'.basicAuth = some ("alice", "secret") :=
  ⟨(C4_no_abort_wellformed_auth okStdlib "GET" "http://example.com"
      { Auth := some ["alice", "secret"] } Option.none
      (Or.inr ⟨"alice", "secret", [], rfl⟩)).1 "boom",
   (C4_no_abort_wellformed_auth okStdlib "GET" "http://example.com"
      { Auth := some ["alice", "secret"] } Option.none
      (Or.inr ⟨"alice", "secret", [], rfl⟩)).2
      { method := "GET", url := "http://example.com", body := .empty }
      "alice" "secret" [] rfl⟩

/-- Witness for C5 at the all-zero bag and at a supplied client. -/
theorem C5_witness :
    BuildHTTPClient {} = .defaultClient ∧
    BuildHTTPClient { HTTPClient := some 7, InsecureSkipVerify := true } =
      .supplied 7 :=
  ⟨((C5_client_builder_decision {}).1 rfl).mpr (by simp),
   (C5_client_builder_decision
      { HTTPClient := some 7, InsecureSkipVerify := true }).2 7 rfl⟩

/-- Witness for C6 on a URL whose query holds `dup=old&keep=1`, overlaid
with `dup=new`. -/
theorem C6_witness :
    valuesGet (overlayParams [("dup", "new")]
        (okStdlib.urlParseQuery "dup=old&keep=1").1) "dup" = some ["new"] ∧
    valuesGet (overlayParams [("dup", "new")]
        (okStdlib.urlParseQuery "dup=old&keep=1").1) "keep" =
      valuesGet (okStdlib.urlParseQuery "dup=old&keep=1").1 "keep" :=
  ⟨(C6_param_overlay okStdlib "http://example.com/path?dup=old&keep=1"
      [("dup", "new")]
      { urlString := "http://example.com/path?dup=old&keep=1",
        rawQuery := "dup=old&keep=1" }
      rfl (by decide) (by decide) (by decide)).2.1 "dup" "new" (by decide),
   (C6_param_overlay okStdlib "http://example.com/path?dup=old&keep=1"
      [("dup", "new")]
      { urlString := "http://example.com/path?dup=old&keep=1",
        rawQuery := "dup=old&keep=1" }
      rfl (by decide) (by decide) (by decide)).2.2.1 "keep" (by decide)⟩

/-- Witness for C7: the two insertion orders of `b↦2, a↦1` encode alike. -/
theorem C7_witness :
    encodePostValues [("b", "2"), ("a", "1")] =
      encodePostValues [("a", "1"), ("b", "2")] :=
  (C7_form_encoding [("b", "2"), ("a", "1")] [("a", "1"), ("b", "2")]).1
    (by decide) (by decide)

/-- Witness for C8: an `http`-only proxy map with an `https` request falls
back to the environment; the `http` scheme hits the map. -/
theorem C8_witness :
    RequestOptions.proxySettings { Proxies := [("http", "http://proxyA:8080")] }
        (.ok Option.none) "https" = .ok Option.none ∧
    RequestOptions.proxySettings { Proxies := [("http", "http://proxyA:8080")] }
        (.ok Option.none) "http" = .ok (some "http://proxyA:8080") :=
  ⟨(C8_proxy_resolution { Proxies := [("http", "http://proxyA:8080")] }
      (.ok Option.none) "https").2.2 (by decide) rfl,
   (C8_proxy_resolution { Proxies := [("http", "http://proxyA:8080")] }
      (.ok Option.none) "http").2.1 "http://proxyA:8080" rfl⟩

/-- Witness for C9 (amended) at a concrete PATCH upload. -/
theorem C9_witness :
    createFileUploadRequest okStdlib "PATCH" "http://example.com/up"
        { File := some { FileName := "x.bin",
                         FileContents := some { contents := [7] } } } =
      .ok { method := "PATCH", url := "http://example.com/up",
            body := .stream { contents := [7] },
            headers := valuesSet [] "Content-Type" (mimeTypeByExtension "x.bin") } :=
  C9_nonpost_file_request okStdlib "PATCH" "http://example.com/up"
    { File := some { FileName := "x.bin", FileContents := some { contents := [7] } } }
    { FileName := "x.bin", FileContents := some { contents := [7] } }
    { contents := [7] } (by decide) rfl rfl rfl

/-- Witness for C10 at a concrete verb and URL. -/
theorem C10_witness :
    buildRequest okStdlib "GET" "http://example.com" Option.none Option.none =
      .ok (BuiltClient.defaultClient,
        { method := "GET", url := "http://example.com", body := .empty,
          headers := valuesSet [] "User-Agent" localUserAgent }) :=
  (C10_nil_options okStdlib "GET" "http://example.com" Option.none).2 rfl

end Grequests
